import Mathlib

/-!
Verification of the `cdp` profile manager (Go) against its specification.

Shallow embedding of:
* `internal/config/profile.go` — `ValidateName`, `CreateProfileWithTemplate`,
  `DeleteProfile`, `GetProfile`, `CloneProfile`, `RenameProfile`, `ImportProfile`;
* the backup package (`BackupManager`) — `Backup`, `Restore`, `List`, `Delete`, `Cleanup`.

The file system is modeled as association lists of named nodes; file contents are
either opaque byte lists or a structured metadata value standing for its JSON
serialization.  Go `time.Time` values are modeled as civil date-time tuples plus a
nanosecond field, compared by their absolute position on a single (zone-less) time
line.  Concurrency, file permissions and injected I/O faults are not modeled; the
only modeled failure source during extraction is a corrupt archive entry.
-/

namespace CDP

/-! ### Time model

Go `time.Time` restricted to what the program uses: a proleptic-Gregorian civil
date-time (`time.Parse` / `Format` with layout `"20060102-150405"` carries second
resolution, so parsed values have `nano = 0`; `time.Now()` may carry nanoseconds).
`Before`/`After` compare absolute instants, modeled by `absNano` via the standard
days-from-civil-epoch computation.  Time zones / DST are not modeled: all values
live on one time line. -/

structure DateTime where
  year : Nat
  month : Nat
  day : Nat
  hour : Nat
  minute : Nat
  second : Nat
  nano : Nat
deriving DecidableEq, Repr

/-- The zero value of Go `time.Time`: January 1, year 1, 00:00:00. -/
def zeroTime : DateTime := ⟨1, 1, 1, 0, 0, 0, 0⟩

def isLeap (y : Nat) : Bool := (y % 4 == 0 && y % 100 != 0) || y % 400 == 0

def daysInMonth (y m : Nat) : Nat :=
  if m = 2 then (if isLeap y then 29 else 28)
  else if m = 4 ∨ m = 6 ∨ m = 9 ∨ m = 11 then 30
  else 31

/-- Days since 1970-01-01 of a civil date (proleptic Gregorian). -/
def daysFromCivil (y : Int) (m d : Nat) : Int :=
  let y' : Int := if m ≤ 2 then y - 1 else y
  let era : Int := Int.fdiv y' 400
  let yoe : Int := y' - era * 400
  let mp : Int := if m > 2 then (m : Int) - 3 else (m : Int) + 9
  let doy : Int := (153 * mp + 2) / 5 + (d : Int) - 1
  let doe : Int := yoe * 365 + yoe / 4 - yoe / 100 + doy
  era * 146097 + doe - 719468

/-- Absolute position of a `DateTime` on the time line, in nanoseconds.
Go `time.Time.Before`/`After` compare exactly this quantity. -/
def absNano (t : DateTime) : Int :=
  ((daysFromCivil t.year t.month t.day) * 86400
    + t.hour * 3600 + t.minute * 60 + t.second) * 1000000000 + t.nano

def isDigit (c : Char) : Bool := decide ('0' ≤ c) && decide (c ≤ '9')

def digitVal (c : Char) : Nat := c.toNat - 48

/-- Go `time.Parse("20060102-150405", s)`: exactly 15 characters shaped
`DDDDDDDD-DDDDDD`, with month/day/hour/minute/second range-checked the way the
Go parser checks them (day against the month length, proleptic Gregorian).
Parsed values carry `nano = 0`. -/
def parseTimestamp (s : List Char) : Option DateTime :=
  match s with
  | [y1, y2, y3, y4, mo1, mo2, d1, d2, dash, h1, h2, mi1, mi2, s1, s2] =>
    if dash = '-'
        && [y1, y2, y3, y4, mo1, mo2, d1, d2, h1, h2, mi1, mi2, s1, s2].all isDigit then
      let y := digitVal y1 * 1000 + digitVal y2 * 100 + digitVal y3 * 10 + digitVal y4
      let mo := digitVal mo1 * 10 + digitVal mo2
      let d := digitVal d1 * 10 + digitVal d2
      let h := digitVal h1 * 10 + digitVal h2
      let mi := digitVal mi1 * 10 + digitVal mi2
      let sec := digitVal s1 * 10 + digitVal s2
      if 1 ≤ mo && mo ≤ 12 && 1 ≤ d && d ≤ daysInMonth y mo
          && h ≤ 23 && mi ≤ 59 && sec ≤ 59 then
        some ⟨y, mo, d, h, mi, sec, 0⟩
      else none
    else none
  | _ => none

/-- Left-pad the decimal digits of `n` with zeros to width `w`
(Go `Format` zero-padded numeric verbs). -/
def padNum (w n : Nat) : List Char :=
  let ds := Nat.toDigits 10 n
  List.replicate (w - ds.length) '0' ++ ds

/-- Go `t.Format("20060102-150405")`. -/
def formatTimestamp (t : DateTime) : List Char :=
  padNum 4 t.year ++ padNum 2 t.month ++ padNum 2 t.day ++ ['-']
    ++ padNum 2 t.hour ++ padNum 2 t.minute ++ padNum 2 t.second

/-! ### Profile name validation (`profile.go` `ValidateName`) -/

/-- Error taxonomy of the spec (§7); each variant stands for one family of the
`fmt.Errorf` messages in the source. -/
inductive Err where
  | validation
  | notFound
  | alreadyExists
  | protectedState
  | invalidFormat
  | existsNoOverwrite
  | ioError
  | corruptData
  | cancelled
deriving DecidableEq, Repr

/-- One character of the class `[a-zA-Z0-9_-]` from `profileNamePattern`. -/
def validChar (c : Char) : Bool :=
  (decide ('a' ≤ c) && decide (c ≤ 'z'))
    || (decide ('A' ≤ c) && decide (c ≤ 'Z'))
    || (decide ('0' ≤ c) && decide (c ≤ '9'))
    || c == '_' || c == '-'

/-- Go `len(s)`: the UTF-8 byte length of the string. -/
def goLen (s : String) : Nat := s.data.foldr (fun c n => c.utf8Size + n) 0

/-- `ValidateName` (profile.go:54-65): rejects the empty string, byte length
over 50, and any string not matched by `^[a-zA-Z0-9_-]+$`. -/
def validateName (name : String) : Except Err Unit :=
  if name = "" then .error .validation
  else if goLen name > 50 then .error .validation
  else if !(name.data.all validChar) then .error .validation
  else .ok ()

lemma utf8Size_of_validChar (c : Char) (h : validChar c = true) : c.utf8Size = 1 := by
  have hb : c.val.toNat ≤ 122 := by
    simp only [validChar, Bool.or_eq_true, Bool.and_eq_true, decide_eq_true_eq,
      beq_iff_eq] at h
    rcases h with (((⟨_, h2⟩ | ⟨_, h2⟩) | ⟨_, h2⟩) | h2) | h2
    · exact h2
    · exact le_trans h2 (by decide)
    · exact le_trans h2 (by decide)
    · subst h2; decide
    · subst h2; decide
  unfold Char.utf8Size
  simp only []
  rw [if_pos]
  show c.val.toNat ≤ 127
  omega

lemma utf8Size_pos (c : Char) : 0 < c.utf8Size := by
  unfold Char.utf8Size
  simp only []
  split
  · omega
  · split
    · omega
    · split <;> omega

lemma byteLen_eq_length (l : List Char) (h : ∀ c ∈ l, validChar c = true) :
    l.foldr (fun c n => c.utf8Size + n) 0 = l.length := by
  induction l with
  | nil => rfl
  | cons c rest ih =>
    simp only [List.foldr_cons, List.length_cons]
    rw [utf8Size_of_validChar c (h c (List.mem_cons_self c rest)),
      ih (fun x hx => h x (List.mem_cons_of_mem c hx))]
    omega

/-- C2. `ValidateName(s)` succeeds iff the length of `s` is between 1 and 50
inclusive and every character of `s` lies in `[A-Za-z0-9_-]`. -/
theorem validateName_ok_iff (s : String) :
    validateName s = .ok () ↔
      1 ≤ s.length ∧ s.length ≤ 50 ∧ ∀ c ∈ s.data, validChar c = true := by
  have hlen : s.length = s.data.length := rfl
  constructor
  · intro h
    unfold validateName at h
    split at h
    · exact absurd h (by simp)
    · split at h
      · exact absurd h (by simp)
      · split at h
        · exact absurd h (by simp)
        · rename_i hne hle hall
          rw [Bool.not_eq_true', Bool.not_eq_false] at hall
          rw [List.all_eq_true] at hall
          refine ⟨?_, ?_, hall⟩
          · rw [hlen]
            rcases Nat.eq_zero_or_pos s.data.length with h0 | h1
            · exact absurd (String.ext (List.length_eq_zero.mp h0)) hne
            · exact h1
          · rw [hlen]
            have : goLen s = s.data.length := byteLen_eq_length s.data hall
            omega
  · rintro ⟨h1, h2, hall⟩
    have hgo : goLen s = s.data.length := byteLen_eq_length s.data hall
    have hne : s ≠ "" := by
      intro he; rw [he] at h1; exact absurd h1 (by decide)
    have h50 : ¬ goLen s > 50 := by omega
    have hb : s.data.all validChar = true := List.all_eq_true.mpr hall
    unfold validateName
    rw [if_neg hne, if_neg h50, if_neg (by simp [hb])]

/-! ### File system model

A profile directory is a tree of named nodes.  File contents are either opaque
bytes or a structured `ProfileMetadata` value standing for its JSON serialization
(the JSON encoder is injective, so a distinct constructor models it faithfully).
Association lists model directory contents; names are literal keys (path
traversal through `..`/`/` in a profile name is outside the model). -/

/-- `ProfileMetadata` (profile.go:27-34).  `lastUsed = zeroTime` models the Go
zero `time.Time`, i.e. the `omitempty` "unset" state. -/
structure ProfileMetadata where
  createdAt : DateTime
  lastUsed : DateTime
  description : String
  usageCount : Nat
  template : String
  customFlags : List String
deriving DecidableEq, Repr

inductive FileContent where
  | bytes (data : List Nat)
  | meta (m : ProfileMetadata)
deriving DecidableEq, Repr

inductive FsNode where
  | file (content : FileContent)
  | dir (children : List (String × FsNode))

def metadataFileName : String := ".metadata.json"
def claudeConfigFile : String := ".claude.json"
def claudeSettingsFile : String := "settings.json"

/-- The two-byte placeholder content `[123, 125]`, the UTF-8 bytes of the
empty-object text the source writes into the placeholder files. -/
def emptyObjectBytes : List Nat := [123, 125]

def lookupFs : List (String × FsNode) → String → Option FsNode
  | [], _ => none
  | (k, v) :: rest, n => if k = n then some v else lookupFs rest n

/-- `os.WriteFile` / overwrite-or-create of one directory entry. -/
def writeChild : List (String × FsNode) → String → FsNode → List (String × FsNode)
  | [], n, node => [(n, node)]
  | (k, v) :: rest, n, node =>
    if k = n then (n, node) :: rest else (k, v) :: writeChild rest n node

/-- `os.RemoveAll` of one directory entry. -/
def eraseChild : List (String × FsNode) → String → List (String × FsNode)
  | [], _ => []
  | (k, v) :: rest, n =>
    if k = n then eraseChild rest n else (k, v) :: eraseChild rest n

/-- One backup-directory entry as `os.ReadDir` reports it.  Archive contents are
not tracked here (`Restore` receives its archive separately); `size` is the
stored file size reported by `entry.Info()`. -/
structure BackupEntry where
  name : String
  isDir : Bool
  size : Int
deriving DecidableEq, Repr

/-- The mutable state the program touches: the profiles directory, the backup
directory, and the active profile recorded in the global config
(`pm.config.CurrentProfile`). -/
structure SysState where
  profiles : List (String × FsNode)
  backups : List BackupEntry
  currentProfile : String

/-- `loadMetadata` (profile.go:271-285): read `<dir>/.metadata.json` and parse.
Reading a missing file or a non-directory is an I/O failure; a byte file that is
not a metadata serialization is a parse failure. -/
def loadMetadata (node : FsNode) : Except Err ProfileMetadata :=
  match node with
  | .dir ch =>
    match lookupFs ch metadataFileName with
    | some (.file (.meta m)) => .ok m
    | some (.file (.bytes _)) => .error .corruptData
    | some (.dir _) => .error .ioError
    | none => .error .ioError
  | .file _ => .error .ioError

/-! ### Template manager (part_004:22-158)

Template bodies live outside the modeled state (embedded assets and the user's
home template directory), so the template manager is modeled as an environment:
`templateExists` is `TemplateExists` (LoadTemplate succeeding), and
`mergeSettings t c` is the content `ApplyTemplate` writes into `settings.json`
after shallow-merging template `t` over the existing content `c`
(`none` = the settings file was absent or unreadable). -/

structure TemplateEnv where
  templateExists : String → Bool
  mergeSettings : String → Option FileContent → FileContent

/-- `ApplyTemplate` (part_004:119-152) on a profile directory's children:
rewrites `settings.json` with the merge of the template over the current
settings content. -/
def applyTemplate (env : TemplateEnv) (template : String)
    (ch : List (String × FsNode)) : List (String × FsNode) :=
  let existing : Option FileContent :=
    match lookupFs ch claudeSettingsFile with
    | some (.file c) => some c
    | _ => none
  writeChild ch claudeSettingsFile (.file (env.mergeSettings template existing))

/-! ### Profile manager operations (profile.go) -/

/-- `CreateProfileWithTemplate` (profile.go:73-135): validate, reject an
existing directory, reject an unknown template, then create the directory,
write metadata (`createdAt = now`, `usageCount = 0`), write the two
empty-object placeholder files, and apply the template if one was given. -/
def createProfileWithTemplate (env : TemplateEnv) (now : DateTime)
    (name description template : String) (s : SysState) :
    Except Err Unit × SysState :=
  match validateName name with
  | .error _ => (.error .validation, s)
  | .ok _ =>
    if (lookupFs s.profiles name).isSome then (.error .alreadyExists, s)
    else if template ≠ "" && !(env.templateExists template) then
      (.error .notFound, s)
    else
      let md : ProfileMetadata := ⟨now, zeroTime, description, 0, template, []⟩
      let ch1 := writeChild [] metadataFileName (.file (.meta md))
      let ch2 := writeChild ch1 claudeConfigFile (.file (.bytes emptyObjectBytes))
      let ch3 := writeChild ch2 claudeSettingsFile (.file (.bytes emptyObjectBytes))
      let ch4 := if template ≠ "" then applyTemplate env template ch3 else ch3
      (.ok (), { s with profiles := s.profiles ++ [(name, .dir ch4)] })

/-- `DeleteProfile` (profile.go:138-161): validate, require existence, refuse
the current profile, then remove the directory tree. -/
def deleteProfile (name : String) (s : SysState) : Except Err Unit × SysState :=
  match validateName name with
  | .error _ => (.error .validation, s)
  | .ok _ =>
    if (lookupFs s.profiles name).isNone then (.error .notFound, s)
    else if s.currentProfile = name then (.error .protectedState, s)
    else (.ok (), { s with profiles := eraseChild s.profiles name })

/-- `GetProfile` (profile.go:214-237): validate, require existence, load
metadata. -/
def getProfile (name : String) (s : SysState) : Except Err ProfileMetadata :=
  match validateName name with
  | .error _ => .error .validation
  | .ok _ =>
    match lookupFs s.profiles name with
    | none => .error .notFound
    | some node => loadMetadata node

/-- `ProfileExists` (profile.go:304-308): a bare `os.Stat`, no validation. -/
def profileExists (name : String) (s : SysState) : Bool :=
  (lookupFs s.profiles name).isSome

/-- The copy loop of `CloneProfile` (profile.go:341-359): top-level regular
files are copied in directory order, subdirectories are skipped. -/
def copyTopLevelFiles :
    List (String × FsNode) → List (String × FsNode) → List (String × FsNode)
  | [], acc => acc
  | (_, .dir _) :: rest, acc => copyTopLevelFiles rest acc
  | (n, .file c) :: rest, acc => copyTopLevelFiles rest (writeChild acc n (.file c))

/-- `CloneProfile` (profile.go:311-374): validate the destination name, load the
source profile (any failure is reported as a does-not-exist error), require the
destination absent, copy the top-level files, then overwrite the metadata with
`createdAt = now`, `usageCount = 0`, cleared `lastUsed` and a generated
description. -/
def cloneProfile (now : DateTime) (source dest : String) (s : SysState) :
    Except Err Unit × SysState :=
  match validateName dest with
  | .error _ => (.error .validation, s)
  | .ok _ =>
    match getProfile source s with
    | .error _ => (.error .notFound, s)
    | .ok srcMd =>
      if (lookupFs s.profiles dest).isSome then (.error .alreadyExists, s)
      else
        match lookupFs s.profiles source with
        | some (.dir srcCh) =>
          let copied := copyTopLevelFiles srcCh []
          let newMd : ProfileMetadata :=
            { srcMd with
              createdAt := now
              lastUsed := zeroTime
              usageCount := 0
              description := "Cloned from " ++ source }
          let destCh := writeChild copied metadataFileName (.file (.meta newMd))
          (.ok (), { s with profiles := s.profiles ++ [(dest, .dir destCh)] })
        | _ => (.error .ioError, s)

/-- `RenameProfile` (profile.go:377-405): validate the new name (the old name is
never validated), require old present, new absent, old not active, then an
atomic directory rename. -/
def renameProfile (oldName newName : String) (s : SysState) :
    Except Err Unit × SysState :=
  match validateName newName with
  | .error _ => (.error .validation, s)
  | .ok _ =>
    if !(profileExists oldName s) then (.error .notFound, s)
    else if profileExists newName s then (.error .alreadyExists, s)
    else if s.currentProfile = oldName then (.error .protectedState, s)
    else
      let renamed :=
        s.profiles.map (fun kv => if kv.1 = oldName then (newName, kv.2) else kv)
      (.ok (), { s with profiles := renamed })

def isFileAt (ch : List (String × FsNode)) (n : String) : Bool :=
  match lookupFs ch n with
  | some (.file _) => true
  | _ => false

/-- The copy loop of `ImportProfile` (profile.go:558-584): top-level files except
the metadata file, in directory order; subdirectories skipped. -/
def copyImportFiles :
    List (String × FsNode) → List (String × FsNode) → List (String × FsNode)
  | [], acc => acc
  | (_, .dir _) :: rest, acc => copyImportFiles rest acc
  | (n, .file c) :: rest, acc =>
    if n = metadataFileName then copyImportFiles rest acc
    else copyImportFiles rest (writeChild acc n (.file c))

/-- `ImportProfile` (profile.go:408-640).  `sourceDir` is the content of the
resolved source path (`none` = missing or not a directory — home expansion and
absolute-path resolution are outside the modeled state); `answerOverwrite` and
`answerProceed` are the two confirmation-prompt replies.  The optional deletion
of the original source tree (step 11) only touches the external source path and
is not part of the modeled state. -/
def importProfile (name description : String)
    (sourceDir : Option (List (String × FsNode)))
    (answerOverwrite answerProceed : Bool) (now : DateTime) (s : SysState) :
    Except Err Unit × SysState :=
  match validateName name with
  | .error _ => (.error .validation, s)
  | .ok _ =>
    match sourceDir with
    | none => (.error .notFound, s)
    | some srcCh =>
      let already := (lookupFs s.profiles name).isSome
      let foundClaudeConfig := isFileAt srcCh claudeConfigFile
      let foundSettings := isFileAt srcCh claudeSettingsFile
      let foundMetadata := isFileAt srcCh metadataFileName
      if already && !answerOverwrite then (.error .cancelled, s)
      else
        let s1 := if already then { s with profiles := eraseChild s.profiles name }
                  else s
        if !answerProceed then (.error .cancelled, s1)
        else
          let copied := copyImportFiles srcCh []
          let withCfg :=
            if !foundClaudeConfig then
              writeChild copied claudeConfigFile (.file (.bytes emptyObjectBytes))
            else copied
          let withSet :=
            if !foundSettings then
              writeChild withCfg claudeSettingsFile (.file (.bytes emptyObjectBytes))
            else withCfg
          let md0 : ProfileMetadata := ⟨now, zeroTime, description, 0, "", []⟩
          let md :=
            if foundMetadata then
              match loadMetadata (.dir withSet) with
              | .ok im => { md0 with template := im.template
                                     customFlags := im.customFlags }
              | .error _ => md0
            else md0
          let final := writeChild withSet metadataFileName (.file (.meta md))
          (.ok (), { s1 with profiles := s1.profiles ++ [(name, .dir final)] })

/-! ### Backup manager (part_004, `package backup`) -/

/-- Go `strings.Split` with a one-character separator: `""` splits to `[""]`,
adjacent separators yield empty fields. -/
def splitOnChar (sep : Char) : List Char → List (List Char)
  | [] => [[]]
  | c :: cs =>
    match splitOnChar sep cs with
    | [] => [[]]
    | g :: gs => if c = sep then [] :: g :: gs else (c :: g) :: gs

/-- Go `strings.Join(_, "-")` restricted to the character-list view. -/
def joinWith (sep : Char) : List (List Char) → List Char
  | [] => []
  | [g] => g
  | g :: gs => g ++ sep :: joinWith sep gs

def tarGzSuffixChars : List Char := ['.', 't', 'a', 'r', '.', 'g', 'z']

/-- Go `strings.TrimSuffix(s, ".tar.gz")`. -/
def trimTarGz (s : List Char) : List Char :=
  if tarGzSuffixChars.isSuffixOf s then s.take (s.length - 7) else s

/-- Go `filepath.Base` (Unix semantics, volume names aside). -/
def goFilepathBase (s : List Char) : List Char :=
  if s = [] then ['.']
  else
    let t := (s.reverse.dropWhile (fun c => c = '/')).reverse
    if t = [] then ['/']
    else (t.reverse.takeWhile (fun c => c ≠ '/')).reverse

/-- The archive filename `Backup` writes:
`<profileName>-<timestamp>.tar.gz` (part_004:832-834). -/
def backupFileName (profileName : String) (now : DateTime) : String :=
  profileName ++ "-" ++ String.mk (formatTimestamp now) ++ ".tar.gz"

/-- `os.Create` over the backup directory: truncates (silently replaces) an
existing file of the same name. -/
def writeBackupEntry : List BackupEntry → BackupEntry → List BackupEntry
  | [], e => [e]
  | b :: rest, e => if b.name = e.name then e :: rest else b :: writeBackupEntry rest e

/-- `Backup` (part_004:824-903): require the profile directory present
(no name validation), then write the tar.gz snapshot of the whole tree into the
backup directory.  Archive bytes and the compressed size are opaque here
(`size = 0`); the returned value is the archive file name (the constant backup
directory prefix of the Go path is omitted). -/
def backup (now : DateTime) (profileName : String) (s : SysState) :
    Except Err String × SysState :=
  if (lookupFs s.profiles profileName).isNone then (.error .notFound, s)
  else
    let backupName := backupFileName profileName now
    (.ok backupName,
      { s with backups := writeBackupEntry s.backups ⟨backupName, false, 0⟩ })

/-- One entry of a decoded tar stream: a directory header, a regular-file
header with its bytes, or a corrupt record on which `tarReader.Next` /
`io.Copy` fails mid-extraction. -/
inductive TarItem where
  | dir (name : String)
  | file (name : String) (content : FileContent)
  | corrupt

def splitPath (s : String) : List String :=
  (splitOnChar '/' s.data).map String.mk

/-- `os.MkdirAll` inside a directory tree: create missing directories along the
path, fail if a regular file occupies any component. -/
def mkdirAllNode : FsNode → List String → Option FsNode
  | node, [] =>
    match node with
    | .dir _ => some node
    | .file _ => none
  | .file _, _ :: _ => none
  | .dir ch, p :: rest =>
    match lookupFs ch p with
    | some child => (mkdirAllNode child rest).map (fun c => .dir (writeChild ch p c))
    | none =>
      (mkdirAllNode (.dir []) rest).map (fun c => .dir (writeChild ch p c))

/-- `os.Create` at a path whose parent exists: overwrite a regular file, fail on
a directory in the way. -/
def createFileNode : FsNode → List String → FileContent → Option FsNode
  | .dir ch, [p], content =>
    match lookupFs ch p with
    | some (.dir _) => none
    | _ => some (.dir (writeChild ch p (.file content)))
  | .dir ch, p :: q :: rest, content =>
    match lookupFs ch p with
    | some child =>
      (createFileNode child (q :: rest) content).map (fun c => .dir (writeChild ch p c))
    | none => none
  | _, _, _ => none

/-- The extraction loop of `Restore` (part_004:953-991): directory headers via
`MkdirAll`, file headers via `MkdirAll` of the parent then `Create`+copy; a
corrupt record aborts.  Applied to the (always initially empty) destination
directory node. -/
def extractItems : List TarItem → FsNode → Option FsNode
  | [], node => some node
  | .corrupt :: _, _ => none
  | .dir name :: rest, node =>
    match mkdirAllNode node (splitPath name) with
    | none => none
    | some n1 => extractItems rest n1
  | .file name c :: rest, node =>
    match mkdirAllNode node (splitPath name).dropLast with
    | none => none
    | some n1 =>
      match createFileNode n1 (splitPath name) c with
      | none => none
      | some n2 => extractItems rest n2

/-- The destination-name derivation of `Restore` (part_004:924-932): strip the
`.tar.gz` extension from the base filename, split on `-`, require at least
three components, and join all but the trailing two. -/
def deriveRestoreName (backupPath : String) : Option String :=
  let base := goFilepathBase backupPath.data
  let parts := splitOnChar '-' (trimTarGz base)
  if parts.length < 3 then none
  else some (String.mk (joinWith '-' (parts.take (parts.length - 2))))

/-- The create-directory-and-extract phase of `Restore` (part_004:947-993),
entered with the destination absent: `MkdirAll` the destination, run the
extraction loop, and on a mid-extraction failure `RemoveAll` the destination. -/
def restoreExtract (profileName : String) (ar : List TarItem) (s : SysState) :
    Except Err String × SysState :=
  let s1 : SysState := { s with profiles := writeChild s.profiles profileName (.dir []) }
  match extractItems ar (.dir []) with
  | none => (.error .ioError, { s1 with profiles := eraseChild s1.profiles profileName })
  | some node =>
    (.ok profileName, { s1 with profiles := writeChild s1.profiles profileName node })

/-- `Restore` (part_004:906-994).  `opened` is the outcome of
`os.Open` + `gzip.NewReader` on `backupPath` (`none` = either fails; the file
store outside the two managed directories is not modeled).  Then: derive the
destination name from the filename, fail `invalidFormat` on fewer than three
hyphen components, require `overwrite` when the destination exists (removing it
entirely before extraction), and extract. -/
def restore (backupPath : String) (opened : Option (List TarItem))
    (overwrite : Bool) (s : SysState) : Except Err String × SysState :=
  match opened with
  | none => (.error .ioError, s)
  | some ar =>
    match deriveRestoreName backupPath with
    | none => (.error .invalidFormat, s)
    | some profileName =>
      if (lookupFs s.profiles profileName).isSome then
        if !overwrite then (.error .existsNoOverwrite, s)
        else
          restoreExtract profileName ar
            { s with profiles := eraseChild s.profiles profileName }
      else restoreExtract profileName ar s

/-- `BackupInfo` (part_004:795-801); `Path` is the backup-directory prefix plus
`name` and is omitted. -/
structure BackupInfo where
  name : String
  profileName : String
  createdAt : DateTime
  size : Int
deriving DecidableEq, Repr

/-- The per-entry step of `List` (part_004:1007-1036): skip directories and
non-`.tar.gz` names, skip names with fewer than three hyphen components, parse
the profile name and the timestamp; a timestamp that fails `time.Parse` is
silently replaced by the zero time (the parse error is discarded). -/
def parseBackupEntry (e : BackupEntry) : Option BackupInfo :=
  if e.isDir || !(tarGzSuffixChars.isSuffixOf e.name.data) then none
  else
    let parts := splitOnChar '-' (trimTarGz e.name.data)
    if parts.length < 3 then none
    else
      let profileName := String.mk (joinWith '-' (parts.take (parts.length - 2)))
      let createdAt :=
        match parseTimestamp (joinWith '-' (parts.drop (parts.length - 2))) with
        | some t => t
        | none => zeroTime
      some ⟨e.name, profileName, createdAt, e.size⟩

/-- The descending-by-creation-time order `List` sorts with
(`sort.Slice` with `CreatedAt.After` as the strict less). -/
def descBy (a b : BackupInfo) : Prop := absNano b.createdAt ≤ absNano a.createdAt

instance : DecidableRel descBy := fun a b => by unfold descBy; infer_instance

instance : IsTotal BackupInfo descBy :=
  ⟨fun a b => by unfold descBy; exact Int.le_total _ _⟩

instance : IsTrans BackupInfo descBy :=
  ⟨fun x y z h1 h2 => by unfold descBy at *; exact le_trans h2 h1⟩

/-- `List` (part_004:997-1044): keep the parseable entries, sorted by creation
time, newest first.  (`sort.Slice` is an unspecified-order comparison sort; any
sort wrt the same order is observationally equal, insertion sort is used here.
`entry.Info()` failures are not modeled.) -/
def listBackups (s : SysState) : List BackupInfo :=
  List.insertionSort descBy (s.backups.filterMap parseBackupEntry)

/-- `Delete` (part_004:1047-1059): `os.Stat` then `os.Remove` of one archive. -/
def deleteBackup (backupName : String) (s : SysState) : Except Err Unit × SysState :=
  if s.backups.all (fun e => e.name ≠ backupName) then (.error .notFound, s)
  else (.ok (), { s with backups := s.backups.filter (fun e => e.name ≠ backupName) })

def nanosPerDay : Int := 86400 * 1000000000

/-- The deletion loop of `Cleanup` (part_004:1076-1082): delete the listed
archives created before the cutoff, counting successful deletes. -/
def cleanupGo : List BackupInfo → Int → SysState → Nat → Nat × SysState
  | [], _, s, deleted => (deleted, s)
  | b :: rest, cutoffAbs, s, deleted =>
    if absNano b.createdAt < cutoffAbs then
      match deleteBackup b.name s with
      | (.ok _, s') => cleanupGo rest cutoffAbs s' (deleted + 1)
      | (.error _, s') => cleanupGo rest cutoffAbs s' deleted
    else cleanupGo rest cutoffAbs s deleted

/-- `Cleanup` (part_004:1067-1085).  `cutoff := now.AddDate(0, 0, -retentionDays)`;
in this zone-less model shifting the civil date by `retentionDays` days shifts
the absolute instant by exactly `retentionDays * 86400` seconds. -/
def cleanup (now : DateTime) (retentionDays : Nat) (s : SysState) : Nat × SysState :=
  let cutoffAbs : Int := absNano now - (retentionDays : Int) * nanosPerDay
  cleanupGo (listBackups s) cutoffAbs s 0

/-! ### Association-list lemmas -/

lemma lookup_writeChild_self (l : List (String × FsNode)) (n : String) (v : FsNode) :
    lookupFs (writeChild l n v) n = some v := by
  induction l with
  | nil => simp [writeChild, lookupFs]
  | cons kv rest ih =>
    obtain ⟨k, w⟩ := kv
    by_cases hk : k = n
    · simp [writeChild, hk, lookupFs]
    · simp [writeChild, hk, lookupFs, ih]

lemma lookup_writeChild_ne (l : List (String × FsNode)) {m n : String} (v : FsNode)
    (h : m ≠ n) : lookupFs (writeChild l n v) m = lookupFs l m := by
  induction l with
  | nil =>
    simp only [writeChild, lookupFs]
    rw [if_neg (fun he => h he.symm)]
  | cons kv rest ih =>
    obtain ⟨k, w⟩ := kv
    by_cases hk : k = n
    · subst hk
      simp only [writeChild, if_pos rfl, lookupFs]
      rw [if_neg (fun he : k = m => h he.symm), if_neg (fun he : k = m => h he.symm)]
    · simp only [writeChild, if_neg hk, lookupFs]
      by_cases hm : k = m
      · rw [if_pos hm, if_pos hm]
      · rw [if_neg hm, if_neg hm, ih]

lemma lookup_eraseChild_self (l : List (String × FsNode)) (n : String) :
    lookupFs (eraseChild l n) n = none := by
  induction l with
  | nil => rfl
  | cons kv rest ih =>
    obtain ⟨k, w⟩ := kv
    by_cases hk : k = n
    · simp [eraseChild, hk, ih]
    · simp [eraseChild, hk, lookupFs, ih]

lemma lookup_append_left_none (l₁ l₂ : List (String × FsNode)) (n : String)
    (h : lookupFs l₁ n = none) : lookupFs (l₁ ++ l₂) n = lookupFs l₂ n := by
  induction l₁ with
  | nil => rfl
  | cons kv rest ih =>
    obtain ⟨k, w⟩ := kv
    by_cases hk : k = n
    · simp [lookupFs, hk] at h
    · simp [lookupFs, hk] at h ⊢
      exact ih h

lemma mem_writeChild {l : List (String × FsNode)} {n m : String} {w v : FsNode}
    (h : (m, v) ∈ writeChild l n w) : (m, v) ∈ l ∨ (m = n ∧ v = w) := by
  induction l with
  | nil => simp [writeChild] at h; exact Or.inr ⟨h.1, h.2⟩
  | cons kv rest ih =>
    obtain ⟨k, u⟩ := kv
    by_cases hk : k = n
    · subst hk
      simp [writeChild] at h
      rcases h with ⟨h1, h2⟩ | h
      · exact Or.inr ⟨h1, h2⟩
      · exact Or.inl (List.mem_cons_of_mem _ h)
    · simp [writeChild, hk] at h
      rcases h with ⟨h1, h2⟩ | h
      · exact Or.inl (by simp [h1, h2])
      · rcases ih h with h' | h'
        · exact Or.inl (List.mem_cons_of_mem _ h')
        · exact Or.inr h'

/-! ### C1 — name validation across operations -/

/-- C1, counterexample to the claim as stated: `Backup` performs no name
validation, so a name failing `^[A-Za-z0-9_-]{1,50}$` whose directory exists
("bad name", containing a space) is accepted: the backup succeeds and the
backup directory gains an archive — a state change with no validation error. -/
theorem backup_accepts_invalid_name :
    validateName "bad name" = .error .validation ∧
    (backup ⟨2026, 10, 11, 12, 0, 0, 0⟩ "bad name"
        ⟨[("bad name", .dir [])], [], ""⟩).fst
      = .ok "bad name-20261011-120000.tar.gz" ∧
    (backup ⟨2026, 10, 11, 12, 0, 0, 0⟩ "bad name"
        ⟨[("bad name", .dir [])], [], ""⟩).snd.backups
      = [⟨"bad name-20261011-120000.tar.gz", false, 0⟩] :=
  ⟨rfl, rfl, rfl⟩

/-- C1, amended: the operations that validate — `CreateProfile`, `DeleteProfile`,
`GetProfile`, `CloneProfile` (destination directly, source through `GetProfile`,
though the source failure is reported as does-not-exist), `RenameProfile` (new
name only), `ImportProfile` — reject a pattern-failing name before any state
change; `Backup` and `Restore` validate nothing and `RenameProfile` never
validates the old name. -/
theorem validated_ops_reject_invalid_names
    (name : String) (h : ∃ e, validateName name = .error e)
    (env : TemplateEnv) (now : DateTime) (d t old src dst desc : String)
    (sourceDir : Option (List (String × FsNode))) (aO aP : Bool) (s : SysState) :
    createProfileWithTemplate env now name d t s = (.error .validation, s) ∧
    deleteProfile name s = (.error .validation, s) ∧
    getProfile name s = .error .validation ∧
    cloneProfile now src name s = (.error .validation, s) ∧
    ((cloneProfile now name dst s).snd = s ∧
      ∃ e, (cloneProfile now name dst s).fst = .error e) ∧
    renameProfile old name s = (.error .validation, s) ∧
    importProfile name desc sourceDir aO aP now s = (.error .validation, s) := by
  obtain ⟨e, he⟩ := h
  refine ⟨?_, ?_, ?_, ?_, ?_, ?_, ?_⟩
  · simp [createProfileWithTemplate, he]
  · simp [deleteProfile, he]
  · simp [getProfile, he]
  · simp [cloneProfile, he]
  · cases hdst : validateName dst with
    | error e' => simp [cloneProfile, hdst]
    | ok u =>
      cases u
      have hg : getProfile name s = .error .validation := by simp [getProfile, he]
      simp [cloneProfile, hdst, hg]
  · simp [renameProfile, he]
  · simp [importProfile, he]

theorem validated_ops_reject_invalid_names_witness :
    (∃ e, validateName "bad name" = Except.error e) ∧
    deleteProfile "bad name" ⟨[], [], ""⟩ = (.error .validation, ⟨[], [], ""⟩) := by
  have h : ∃ e, validateName "bad name" = .error e := ⟨.validation, rfl⟩
  exact ⟨h, (validated_ops_reject_invalid_names "bad name" h
    ⟨fun _ => false, fun _ _ => .bytes []⟩ zeroTime "" "" "" "" "" ""
    none false false ⟨[], [], ""⟩).2.1⟩

/-! ### C7 — deleting the active profile -/

/-- C7, counterexample to the claim as stated: when the configured active
profile's directory does not exist, `DeleteProfile` of that name fails with a
does-not-exist error, not the protected-state error. -/
theorem delete_active_missing_not_protected :
    (deleteProfile "work" ⟨[], [], "work"⟩).fst = .error .notFound ∧
    Err.notFound ≠ Err.protectedState :=
  ⟨rfl, by decide⟩

/-- C7, amended: deleting the name equal to the active profile always fails and
never changes the state; when additionally the name is valid and the directory
exists, the error is specifically the protected-state one. -/
theorem deleteProfile_active_spec (name : String) (s : SysState)
    (h : s.currentProfile = name) :
    (deleteProfile name s).snd = s ∧
    (∃ e, (deleteProfile name s).fst = .error e) ∧
    (validateName name = .ok () → (lookupFs s.profiles name).isSome →
      deleteProfile name s = (.error .protectedState, s)) := by
  unfold deleteProfile
  cases hv : validateName name with
  | error e =>
    exact ⟨rfl, ⟨.validation, rfl⟩, fun hok _ => absurd hok (by simp)⟩
  | ok u =>
    cases u
    by_cases hex : (lookupFs s.profiles name).isNone
    · refine ⟨?_, ?_, ?_⟩
      · simp [hex]
      · exact ⟨.notFound, by simp [hex]⟩
      · intro _ hsome
        rw [Option.isNone_iff_eq_none] at hex
        rw [hex] at hsome
        exact absurd hsome (by simp)
    · refine ⟨?_, ?_, ?_⟩
      · simp [hex, h]
      · exact ⟨.protectedState, by simp [hex, h]⟩
      · intro _ _
        simp [hex, h]

theorem deleteProfile_active_spec_witness :
    deleteProfile "work" ⟨[("work", .dir [])], [], "work"⟩
      = (.error .protectedState, ⟨[("work", .dir [])], [], "work"⟩) :=
  (deleteProfile_active_spec "work" ⟨[("work", .dir [])], [], "work"⟩ rfl).2.2 rfl rfl

/-! ### C8 — creating the same profile twice -/

/-- C8: if `CreateProfile` succeeds for a name, a second call with the same name
(any description/template, any later clock) fails with the already-exists error
and returns the state of the first call unchanged. -/
theorem createProfile_twice_alreadyExists
    (env : TemplateEnv) (now now' : DateTime) (name d t d' t' : String)
    (s s₁ : SysState)
    (h : createProfileWithTemplate env now name d t s = (.ok (), s₁)) :
    createProfileWithTemplate env now' name d' t' s₁ = (.error .alreadyExists, s₁) := by
  unfold createProfileWithTemplate at h ⊢
  split at h
  · exact absurd h (by simp)
  · rename_i u hv
    cases u
    split at h
    · exact absurd h (by simp)
    · rename_i hex
      split at h
      · exact absurd h (by simp)
      · rw [Prod.mk.injEq] at h
        obtain ⟨-, hs⟩ := h
        have hln : lookupFs s.profiles name = none := by
          rw [← Option.not_isSome_iff_eq_none]
          simpa using hex
        have hlook : (lookupFs s₁.profiles name).isSome = true := by
          rw [← hs]
          simp only []
          rw [lookup_append_left_none _ _ _ hln]
          simp [lookupFs]
        simp only [hv]
        rw [if_pos hlook]

/-- The state produced by a successful `CreateProfile("work", "d")` on the
empty state at the sample instant; used by the witness below. -/
def firstCreateState : SysState :=
  ⟨[("work", .dir
      [(metadataFileName,
          .file (.meta ⟨⟨2026, 10, 11, 12, 0, 0, 0⟩, zeroTime, "d", 0, "", []⟩)),
        (claudeConfigFile, .file (.bytes emptyObjectBytes)),
        (claudeSettingsFile, .file (.bytes emptyObjectBytes))])],
    [], ""⟩

theorem createProfile_twice_alreadyExists_witness :
    createProfileWithTemplate ⟨fun _ => false, fun _ _ => .bytes []⟩
        ⟨2026, 10, 11, 12, 0, 0, 0⟩ "work" "x" "" (firstCreateState)
      = (.error .alreadyExists, firstCreateState) :=
  createProfile_twice_alreadyExists ⟨fun _ => false, fun _ _ => .bytes []⟩
    ⟨2026, 10, 11, 12, 0, 0, 0⟩ ⟨2026, 10, 11, 12, 0, 0, 0⟩ "work" "d" "" "x" ""
    ⟨[], [], ""⟩ firstCreateState rfl

/-! ### C9 / C10 — restore over an existing profile -/

lemma restoreExtract_ok_name (n : String) (ar : List TarItem) (st : SysState)
    (r : String) (s' : SysState) (h : restoreExtract n ar st = (.ok r, s')) :
    r = n := by
  unfold restoreExtract at h
  cases hext : extractItems ar (.dir []) with
  | none => rw [hext] at h; exact absurd h (by simp)
  | some node =>
    rw [hext] at h
    have := congrArg Prod.fst h
    simp at this
    exact this.symm

/-- C9: when the derived destination profile already exists, `Restore` with
`overwrite = false` fails with the exists-no-overwrite error leaving the state
unchanged, and `Restore` with `overwrite = true` runs the extraction phase on
the state from which the destination has been fully removed — removal precedes
extraction. -/
theorem restore_overwrite_spec (path : String) (ar : List TarItem) (s : SysState)
    (name : String) (hd : deriveRestoreName path = some name)
    (hex : (lookupFs s.profiles name).isSome = true) :
    restore path (some ar) false s = (.error .existsNoOverwrite, s) ∧
    restore path (some ar) true s
      = restoreExtract name ar { s with profiles := eraseChild s.profiles name } := by
  unfold restore
  rw [hd]
  simp [hex]

theorem restore_overwrite_spec_witness :
    restore "work-20261011-120000.tar.gz" (some []) false
        ⟨[("work", .dir [])], [], ""⟩
      = (.error .existsNoOverwrite, ⟨[("work", .dir [])], [], ""⟩) :=
  (restore_overwrite_spec "work-20261011-120000.tar.gz" [] ⟨[("work", .dir [])], [], ""⟩
    "work" rfl rfl).1

/-- C10: `Restore` with `overwrite = true` on an existing destination followed by
a mid-extraction failure leaves the destination absent: the old profile is
already removed and the partially-restored directory is removed by the cleanup,
so the profile exists in neither its old nor the backup's state. -/
theorem restore_midfail_removes_dest (path : String) (ar : List TarItem)
    (s : SysState) (name : String) (hd : deriveRestoreName path = some name)
    (hex : (lookupFs s.profiles name).isSome = true)
    (hfail : extractItems ar (.dir []) = none) :
    (restore path (some ar) true s).fst = .error .ioError ∧
    lookupFs (restore path (some ar) true s).snd.profiles name = none := by
  have h9 := (restore_overwrite_spec path ar s name hd hex).2
  rw [h9]
  unfold restoreExtract
  rw [hfail]
  exact ⟨rfl, lookup_eraseChild_self _ _⟩

theorem restore_midfail_removes_dest_witness :
    (restore "work-20261011-120000.tar.gz" (some [.corrupt]) true
        ⟨[("work", .dir [("f", .file (.bytes [1]))])], [], ""⟩).fst
      = .error .ioError ∧
    lookupFs (restore "work-20261011-120000.tar.gz" (some [.corrupt]) true
        ⟨[("work", .dir [("f", .file (.bytes [1]))])], [], ""⟩).snd.profiles "work"
      = none :=
  restore_midfail_removes_dest "work-20261011-120000.tar.gz" [.corrupt]
    ⟨[("work", .dir [("f", .file (.bytes [1]))])], [], ""⟩ "work" rfl rfl rfl

/-! ### C4 — the derived destination name of `Restore` -/

/-- C4: provided the archive opens, a base filename with at least three
hyphen-delimited components (after stripping `.tar.gz`) makes any successful
`Restore` return the join of all components but the trailing two, and a
filename with fewer than three components makes `Restore` fail with the
invalid-format error. -/
theorem restore_derived_name_spec (path : String) (ar : List TarItem)
    (ow : Bool) (s : SysState) :
    ((splitOnChar '-' (trimTarGz (goFilepathBase path.data))).length < 3 →
      restore path (some ar) ow s = (.error .invalidFormat, s)) ∧
    (∀ r s', restore path (some ar) ow s = (.ok r, s') →
      r = String.mk (joinWith '-'
        ((splitOnChar '-' (trimTarGz (goFilepathBase path.data))).take
          ((splitOnChar '-' (trimTarGz (goFilepathBase path.data))).length - 2)))) := by
  constructor
  · intro hlt
    have hd : deriveRestoreName path = none := by
      unfold deriveRestoreName
      rw [if_pos hlt]
    unfold restore
    rw [hd]
  · intro r s' h
    by_cases hlt : (splitOnChar '-' (trimTarGz (goFilepathBase path.data))).length < 3
    · have hd : deriveRestoreName path = none := by
        unfold deriveRestoreName
        rw [if_pos hlt]
      unfold restore at h
      rw [hd] at h
      exact absurd h (by simp)
    · have hd : deriveRestoreName path
          = some (String.mk (joinWith '-'
            ((splitOnChar '-' (trimTarGz (goFilepathBase path.data))).take
              ((splitOnChar '-' (trimTarGz (goFilepathBase path.data))).length - 2)))) := by
        unfold deriveRestoreName
        rw [if_neg hlt]
      generalize hg : String.mk (joinWith '-'
        ((splitOnChar '-' (trimTarGz (goFilepathBase path.data))).take
          ((splitOnChar '-' (trimTarGz (goFilepathBase path.data))).length - 2))) = nm at hd ⊢
      unfold restore at h
      rw [hd] at h
      dsimp only [] at h
      by_cases hexst : (lookupFs s.profiles nm).isSome = true
      · rw [if_pos hexst] at h
        cases ow with
        | true =>
          rw [if_neg (by decide : ¬ ((!true) = true))] at h
          exact restoreExtract_ok_name nm ar _ r s' h
        | false =>
          rw [if_pos (by decide : (!false) = true)] at h
          exact absurd h (by simp)
      · rw [if_neg hexst] at h
        exact restoreExtract_ok_name nm ar s r s' h

theorem restore_derived_name_spec_witness :
    restore "bad.tar.gz" (some []) false ⟨[], [], ""⟩
      = (.error .invalidFormat, ⟨[], [], ""⟩) :=
  (restore_derived_name_spec "bad.tar.gz" [] false ⟨[], [], ""⟩).1 (by decide)

/-! ### C3 — clone copies top-level files and resets metadata -/

lemma copy_no_write_of_not_mem (src : List (String × FsNode)) (n : String)
    (h : n ∉ src.map Prod.fst) (acc : List (String × FsNode)) :
    lookupFs (copyTopLevelFiles src acc) n = lookupFs acc n := by
  induction src generalizing acc with
  | nil => rfl
  | cons kv rest ih =>
    obtain ⟨k, v⟩ := kv
    have hk : k ≠ n := by
      intro he; exact h (by simp [he])
    have hrest : n ∉ rest.map Prod.fst := by
      intro hm; exact h (by simp [hm])
    cases v with
    | dir ch => exact ih hrest acc
    | file c =>
      rw [show copyTopLevelFiles ((k, FsNode.file c) :: rest) acc
          = copyTopLevelFiles rest (writeChild acc k (.file c)) from rfl]
      rw [ih hrest, lookup_writeChild_ne _ _ (fun he => hk he.symm)]

lemma copy_mem_lookup (src : List (String × FsNode))
    (hnd : (src.map Prod.fst).Nodup) (n : String) (c : FileContent)
    (hmem : (n, FsNode.file c) ∈ src) (acc : List (String × FsNode)) :
    lookupFs (copyTopLevelFiles src acc) n = some (.file c) := by
  induction src generalizing acc with
  | nil => exact absurd hmem (by simp)
  | cons kv rest ih =>
    obtain ⟨k, v⟩ := kv
    rw [List.map_cons, List.nodup_cons] at hnd
    rcases List.mem_cons.mp hmem with hhead | htail
    · obtain ⟨hk, hv⟩ := Prod.mk.injEq .. ▸ hhead
      subst hk
      rw [← hv]
      rw [show copyTopLevelFiles ((n, FsNode.file c) :: rest) acc
          = copyTopLevelFiles rest (writeChild acc n (.file c)) from rfl]
      rw [copy_no_write_of_not_mem rest n hnd.1, lookup_writeChild_self]
    · cases v with
      | dir ch => exact ih hnd.2 htail acc
      | file c' =>
        rw [show copyTopLevelFiles ((k, FsNode.file c') :: rest) acc
            = copyTopLevelFiles rest (writeChild acc k (.file c')) from rfl]
        exact ih hnd.2 htail _

lemma copy_entries_no_dir (src : List (String × FsNode))
    (acc : List (String × FsNode))
    (hacc : ∀ m sub, (m, FsNode.dir sub) ∉ acc) :
    ∀ m sub, (m, FsNode.dir sub) ∉ copyTopLevelFiles src acc := by
  induction src generalizing acc with
  | nil => exact hacc
  | cons kv rest ih =>
    obtain ⟨k, v⟩ := kv
    cases v with
    | dir ch => exact ih acc hacc
    | file c =>
      refine ih _ (fun m sub hmem => ?_)
      rcases mem_writeChild hmem with hin | ⟨-, hbad⟩
      · exact hacc m sub hin
      · exact FsNode.noConfusion hbad

/-- C3: with the source profile loadable, a valid absent destination, and
(as in any real directory) distinct names in the source, `CloneProfile`
succeeds; every top-level regular file of the source other than the metadata
file appears in the destination with identical content, no directory entry ever
appears in the destination, and the destination's metadata has `usageCount = 0`
and `lastUsed` unset regardless of the source's metadata. -/
theorem cloneProfile_spec (now : DateTime) (source dest : String) (s : SysState)
    (srcCh : List (String × FsNode)) (srcMd : ProfileMetadata)
    (hsn : lookupFs s.profiles source = some (.dir srcCh))
    (hget : getProfile source s = .ok srcMd)
    (hvd : validateName dest = .ok ())
    (habs : lookupFs s.profiles dest = none)
    (hnd : (srcCh.map Prod.fst).Nodup) :
    (cloneProfile now source dest s).fst = .ok () ∧
    ∃ destCh, lookupFs (cloneProfile now source dest s).snd.profiles dest
        = some (.dir destCh) ∧
      (∀ n c, (n, FsNode.file c) ∈ srcCh → n ≠ metadataFileName →
        lookupFs destCh n = some (.file c)) ∧
      (∀ n sub, (n, FsNode.dir sub) ∉ destCh) ∧
      ∃ md, lookupFs destCh metadataFileName = some (.file (.meta md)) ∧
        md.usageCount = 0 ∧ md.lastUsed = zeroTime := by
  have hres : cloneProfile now source dest s
      = (.ok (), { s with profiles := s.profiles ++
          [(dest, .dir (writeChild (copyTopLevelFiles srcCh [])
            metadataFileName (.file (.meta
              { srcMd with
                createdAt := now
                lastUsed := zeroTime
                usageCount := 0
                description := "Cloned from " ++ source }))))] }) := by
    unfold cloneProfile
    rw [hvd]
    dsimp only []
    rw [hget]
    dsimp only []
    rw [if_neg (by simp [habs]), hsn]
  rw [hres]
  refine ⟨rfl, writeChild (copyTopLevelFiles srcCh []) metadataFileName (.file (.meta
    { srcMd with
      createdAt := now
      lastUsed := zeroTime
      usageCount := 0
      description := "Cloned from " ++ source })), ?_, ?_, ?_, ?_⟩
  · show lookupFs (s.profiles ++ [(dest, _)]) dest = _
    rw [lookup_append_left_none _ _ _ habs]
    simp [lookupFs]
  · intro n c hmem hne
    rw [lookup_writeChild_ne _ _ hne, copy_mem_lookup srcCh hnd n c hmem]
  · intro m sub hmem
    rcases mem_writeChild hmem with hin | ⟨-, hbad⟩
    · exact copy_entries_no_dir srcCh [] (by simp) m sub hin
    · exact FsNode.noConfusion hbad
  · refine ⟨_, lookup_writeChild_self _ _ _, rfl, rfl⟩

/-- Sample source profile directory for the clone witness: metadata with
`usageCount = 7` and a set `lastUsed`, plus one ordinary file. -/
def cloneSrcState : SysState :=
  ⟨[("work", .dir
      [(metadataFileName,
          .file (.meta ⟨⟨2026, 10, 11, 12, 0, 0, 0⟩, ⟨2026, 10, 11, 12, 0, 0, 0⟩,
            "d", 7, "", []⟩)),
        ("a.txt", .file (.bytes [1, 2]))])],
    [], ""⟩

theorem cloneProfile_spec_witness :
    validateName "copy" = .ok () ∧
    (cloneProfile ⟨2026, 10, 12, 0, 0, 0, 0⟩ "work" "copy" cloneSrcState).fst
      = .ok () := by
  refine ⟨rfl, (cloneProfile_spec ⟨2026, 10, 12, 0, 0, 0, 0⟩ "work" "copy"
    cloneSrcState _ _ rfl rfl rfl rfl (by decide)).1⟩

/-! ### C5 — listing backups -/

/-- Modelled from the spec's words for C5 only: "parses each archive filename
into (profileName, timestamp); unparseable entries are skipped" — i.e. an entry
whose trailing components do not form a valid timestamp has no (profileName,
timestamp) reading and is skipped.  Compared against `parseBackupEntry`
(the code), which never skips on a timestamp-parse failure. -/
def specParseBackupFileName (fileName : String) : Option (String × DateTime) :=
  if !(tarGzSuffixChars.isSuffixOf fileName.data) then none
  else
    let parts := splitOnChar '-' (trimTarGz fileName.data)
    if parts.length < 3 then none
    else
      match parseTimestamp (joinWith '-' (parts.drop (parts.length - 2))) with
      | some t => some (String.mk (joinWith '-' (parts.take (parts.length - 2))), t)
      | none => none

/-- C5, counterexample to the claim as stated: `a-x-y.tar.gz` does not parse
into a (profileName, timestamp) pair — `time.Parse` fails on `x-y` — yet `List`
does not skip it: the entry is returned with the zero creation time (the parse
error is silently discarded at part_004:1027). -/
theorem list_keeps_unparseable_timestamp :
    specParseBackupFileName "a-x-y.tar.gz" = none ∧
    listBackups ⟨[], [⟨"a-x-y.tar.gz", false, 5⟩], ""⟩
      = [⟨"a-x-y.tar.gz", "a", zeroTime, 5⟩] :=
  ⟨rfl, rfl⟩

/-- C5, amended: `List` returns exactly the non-directory `.tar.gz` entries
whose stripped filename has at least three hyphen-delimited components (an
entry with an invalid trailing timestamp is kept, with the zero time recorded),
and the result is sorted by creation time descending. -/
theorem listBackups_perm_sorted (s : SysState) :
    (listBackups s).Perm (s.backups.filterMap parseBackupEntry) ∧
    List.Sorted descBy (listBackups s) :=
  ⟨List.perm_insertionSort descBy _, List.sorted_insertionSort descBy _⟩

/-! ### C6 — cleanup by retention -/

/-- Whether `Cleanup` deletes a given directory entry: it must be listed
(parseable per `parseBackupEntry`) and its recorded creation time must be
strictly before the cutoff. -/
def staleEntry (cutoffAbs : Int) (e : BackupEntry) : Bool :=
  match parseBackupEntry e with
  | some b => decide (absNano b.createdAt < cutoffAbs)
  | none => false

lemma parse_name_eq {e : BackupEntry} {b : BackupInfo}
    (h : parseBackupEntry e = some b) : b.name = e.name := by
  unfold parseBackupEntry at h
  split at h
  · exact absurd h (by simp)
  · dsimp only [] at h
    split at h
    · exact absurd h (by simp)
    · rw [← Option.some.inj h]

lemma staleEntry_of_parse {e : BackupEntry} {b : BackupInfo} (cutoff : Int)
    (h : parseBackupEntry e = some b) :
    staleEntry cutoff e = decide (absNano b.createdAt < cutoff) := by
  unfold staleEntry
  rw [h]

lemma staleEntry_of_noparse {e : BackupEntry} (cutoff : Int)
    (h : parseBackupEntry e = none) : staleEntry cutoff e = false := by
  unfold staleEntry
  rw [h]

lemma deleteBackup_found (st : SysState) (n : String)
    (h : ∃ e ∈ st.backups, e.name = n) :
    deleteBackup n st
      = (.ok (), { st with backups := st.backups.filter (fun e => e.name ≠ n) }) := by
  obtain ⟨e, he, hn⟩ := h
  unfold deleteBackup
  rw [if_neg]
  intro hall
  rw [List.all_eq_true] at hall
  have := hall e he
  simp [hn] at this

lemma filterMap_names_sublist (l : List BackupEntry) :
    ((l.filterMap parseBackupEntry).map BackupInfo.name).Sublist
      (l.map BackupEntry.name) := by
  induction l with
  | nil => simp
  | cons e rest ih =>
    cases hp : parseBackupEntry e with
    | none =>
      rw [List.filterMap_cons_none hp, List.map_cons]
      exact ih.cons _
    | some b =>
      rw [List.filterMap_cons_some hp, List.map_cons, List.map_cons,
        parse_name_eq hp]
      exact ih.cons₂ _

lemma countP_staleEntry_eq (l : List BackupEntry) (cutoff : Int) :
    l.countP (staleEntry cutoff)
      = (l.filterMap parseBackupEntry).countP
          (fun b => decide (absNano b.createdAt < cutoff)) := by
  induction l with
  | nil => rfl
  | cons e rest ih =>
    cases hp : parseBackupEntry e with
    | none =>
      rw [List.filterMap_cons_none hp,
        List.countP_cons_of_neg _ _ (by simp [staleEntry_of_noparse cutoff hp]), ih]
    | some b =>
      rw [List.filterMap_cons_some hp]
      by_cases hs : absNano b.createdAt < cutoff
      · rw [List.countP_cons_of_pos _ _ (by simp [staleEntry_of_parse cutoff hp, hs]),
          List.countP_cons_of_pos _ _ (by simp [hs]), ih]
      · rw [List.countP_cons_of_neg _ _ (by simp [staleEntry_of_parse cutoff hp, hs]),
          List.countP_cons_of_neg _ _ (by simp [hs]), ih]

lemma cleanupGo_spec (M : List BackupInfo) (cutoff : Int) :
    ∀ (st : SysState) (d : Nat),
    (M.map BackupInfo.name).Nodup →
    (∀ b ∈ M, ∃ e ∈ st.backups, e.name = b.name) →
    cleanupGo M cutoff st d
      = (d + M.countP (fun b => decide (absNano b.createdAt < cutoff)),
        { st with backups := st.backups.filter (fun e => !(M.any (fun b => b.name == e.name && decide (absNano b.createdAt < cutoff)))) }) := by
  induction M with
  | nil =>
    intro st d _ _
    simp [cleanupGo, List.filter_true]
  | cons b rest ih =>
    intro st d hndM hex
    rw [List.map_cons, List.nodup_cons] at hndM
    by_cases hs : absNano b.createdAt < cutoff
    · have hdel := deleteBackup_found st b.name (hex b (List.mem_cons_self b rest))
      unfold cleanupGo
      rw [if_pos hs, hdel]
      dsimp only []
      rw [ih _ (d + 1) hndM.2 ?hexrest]
      case hexrest =>
        intro b' hb'
        obtain ⟨e, he, hne⟩ := hex b' (List.mem_cons_of_mem b hb')
        have hbne : b'.name ≠ b.name := fun heq =>
          hndM.1 (heq ▸ List.mem_map_of_mem BackupInfo.name hb')
        refine ⟨e, List.mem_filter.mpr ⟨he, by simp [hne, hbne]⟩, hne⟩
      rw [Prod.mk.injEq]
      constructor
      · rw [List.countP_cons_of_pos _ _ (by simp [hs])]
        omega
      · show ({ st with backups := _ } : SysState) = { st with backups := _ }
        rw [SysState.mk.injEq]
        refine ⟨rfl, ?_, rfl⟩
        rw [List.filter_filter]
        refine List.filter_congr (fun e _ => ?_)
        by_cases hbe : e.name = b.name
        · simp [hbe, hs]
        · simp [hbe]
          exact fun _ => Or.inl (fun heq => hbe heq.symm)
    · unfold cleanupGo
      rw [if_neg hs]
      rw [ih st d hndM.2 (fun b' hb' => hex b' (List.mem_cons_of_mem b hb'))]
      rw [Prod.mk.injEq]
      constructor
      · rw [List.countP_cons_of_neg _ _ (by simp [hs])]
      · rw [SysState.mk.injEq]
        refine ⟨rfl, ?_, rfl⟩
        refine List.filter_congr (fun e _ => ?_)
        simp [hs]

/-- C6, counterexample to the claim as stated: with the clock exactly at
2026-10-11 12:00:00 and one backup stamped 20261011-120000 (created by `Backup`
in that same second), `Cleanup(0)` deletes nothing — `CreatedAt.Before(cutoff)`
is strict and the timestamp equals the cutoff — although a backup exists, so
"Cleanup(0) deletes every existing backup" fails. -/
theorem cleanup_zero_misses_current_instant :
    cleanup ⟨2026, 10, 11, 12, 0, 0, 0⟩ 0
        ⟨[], [⟨"work-20261011-120000.tar.gz", false, 3⟩], ""⟩
      = (0, ⟨[], [⟨"work-20261011-120000.tar.gz", false, 3⟩], ""⟩) ∧
    backupFileName "work" ⟨2026, 10, 11, 12, 0, 0, 0⟩
      = "work-20261011-120000.tar.gz" ∧
    ([⟨"work-20261011-120000.tar.gz", false, 3⟩] : List BackupEntry) ≠ [] :=
  ⟨rfl, rfl, by simp⟩

/-- C6, amended: `Cleanup(retentionDays)` computes the cutoff `now` minus
`retentionDays` days and deletes exactly the listed archives whose recorded
timestamp is strictly before the cutoff, returning their number; `Cleanup(0)`
hence deletes every backup whose timestamp is strictly before the current
instant (one stamped exactly at the cutoff instant survives), and
`Cleanup(36500)` deletes nothing when every listed backup's timestamp lies
within the 36500 days before `now`. -/
theorem cleanup_spec (now : DateTime) (k : Nat) (s : SysState)
    (hnd : (s.backups.map BackupEntry.name).Nodup) :
    cleanup now k s
      = (s.backups.countP (staleEntry (absNano now - (k : Int) * nanosPerDay)),
        { s with backups := s.backups.filter (fun e => !staleEntry (absNano now - (k : Int) * nanosPerDay) e) }) ∧
    ((∀ b ∈ listBackups s, absNano now - 36500 * nanosPerDay ≤ absNano b.createdAt) →
      cleanup now 36500 s = (0, s)) := by
  have hperm : (listBackups s).Perm (s.backups.filterMap parseBackupEntry) :=
    List.perm_insertionSort descBy _
  have hmain : ∀ k' : Nat, cleanup now k' s
      = (s.backups.countP (staleEntry (absNano now - (k' : Int) * nanosPerDay)),
        { s with backups := s.backups.filter (fun e => !staleEntry (absNano now - (k' : Int) * nanosPerDay) e) }) := by
    intro k'
    unfold cleanup
    dsimp only []
    generalize absNano now - (k' : Int) * nanosPerDay = cutoff
    have hndF : ((s.backups.filterMap parseBackupEntry).map BackupInfo.name).Nodup :=
      List.Nodup.sublist (filterMap_names_sublist s.backups) hnd
    have hndM : ((listBackups s).map BackupInfo.name).Nodup :=
      ((hperm.map BackupInfo.name).nodup_iff).mpr hndF
    have hex : ∀ b ∈ listBackups s, ∃ e ∈ s.backups, e.name = b.name := by
      intro b hb
      obtain ⟨e, he, hpe⟩ := List.mem_filterMap.mp (hperm.mem_iff.mp hb)
      exact ⟨e, he, (parse_name_eq hpe).symm⟩
    rw [cleanupGo_spec (listBackups s) cutoff s 0 hndM hex, Prod.mk.injEq]
    constructor
    · rw [Nat.zero_add, countP_staleEntry_eq s.backups cutoff]
      exact hperm.countP_eq _
    · rw [SysState.mk.injEq]
      refine ⟨rfl, ?_, rfl⟩
      refine List.filter_congr (fun e he => ?_)
      have hany : ((listBackups s).any
            (fun b => b.name == e.name && decide (absNano b.createdAt < cutoff)))
          = staleEntry cutoff e := by
        rw [Bool.eq_iff_iff]
        constructor
        · intro h
          rw [List.any_eq_true] at h
          obtain ⟨b, hbM, hfb⟩ := h
          rw [Bool.and_eq_true, beq_iff_eq] at hfb
          obtain ⟨hbn, hstale⟩ := hfb
          obtain ⟨e0, he0, hpe0⟩ := List.mem_filterMap.mp (hperm.mem_iff.mp hbM)
          have hee : e0 = e :=
            List.inj_on_of_nodup_map hnd he0 he
              (by rw [← parse_name_eq hpe0]; exact hbn)
          rw [staleEntry_of_parse cutoff (hee ▸ hpe0)]
          exact hstale
        · intro hst
          unfold staleEntry at hst
          cases hpe : parseBackupEntry e with
          | none => rw [hpe] at hst; exact absurd hst (by simp)
          | some b =>
            rw [hpe] at hst
            rw [List.any_eq_true]
            refine ⟨b, hperm.mem_iff.mpr (List.mem_filterMap.mpr ⟨e, he, hpe⟩), ?_⟩
            rw [Bool.and_eq_true, beq_iff_eq]
            exact ⟨parse_name_eq hpe, hst⟩
      rw [hany]
  refine ⟨hmain k, fun hrecent => ?_⟩
  have hstale0 : ∀ e ∈ s.backups,
      staleEntry (absNano now - (36500 : Int) * nanosPerDay) e = false := by
    intro e he
    cases hpe : parseBackupEntry e with
    | none => exact staleEntry_of_noparse _ hpe
    | some b =>
      rw [staleEntry_of_parse _ hpe]
      have hb : b ∈ listBackups s :=
        hperm.mem_iff.mpr (List.mem_filterMap.mpr ⟨e, he, hpe⟩)
      have h2 := hrecent b hb
      simp only [decide_eq_false_iff_not]
      omega
  rw [hmain 36500, Prod.mk.injEq]
  constructor
  · rw [List.countP_eq_zero]
    intro e he
    simp [hstale0 e he]
  · rw [List.filter_eq_self.mpr (fun e he => by simp [hstale0 e he])]

theorem cleanup_spec_witness :
    cleanup ⟨2026, 10, 11, 12, 0, 0, 0⟩ 1
        ⟨[], [⟨"work-20261010-115959.tar.gz", false, 3⟩], ""⟩
      = (1, ⟨[], [], ""⟩) := by
  have h := (cleanup_spec ⟨2026, 10, 11, 12, 0, 0, 0⟩ 1
    ⟨[], [⟨"work-20261010-115959.tar.gz", false, 3⟩], ""⟩ (by decide)).1
  exact h.trans (by rfl)

end CDP
